import Mathlib

/-!
Verification of the workspace path resolver and file operations of
`agent.py` (functions `_resolve_safe_path`, `read_text_file`,
`write_text_file`, `list_files_in_workspace`).

The file system is modelled explicitly: a workspace root (a list of path
segments), a status for the root directory, and a finite enumeration of
entries (files with string contents, and directories) stored as paths
relative to the root, kept in the operating system's enumeration order.
Python string/path primitives (`str.split`, `os.path.splitext`,
`Path.suffix`, `Path.rglob` glob matching, `Path.resolve`) are embedded as
structurally recursive Lean functions so that concrete runs reduce in the
kernel.  `list.sort(key=...)` is a stable sort; it is embedded as the
stable `List.insertionSort`, which computes the same output as any stable
sort for a total transitive comparison.  The PyPDF2 library is external to
the repository; its behaviour on a given file content is passed in as an
explicit oracle value, and only the repository's own dispatch on that
behaviour (lines 144-214 of `agent.py`) is embedded.
-/

namespace Agent

set_option maxRecDepth 100000

/-- `c` occurs in string `s` (Python `c in s` for a single character). -/
def hasChar (s : String) (c : Char) : Bool :=
  s.data.any (fun x => x = c)

/-- Lower-casing, Python `str.lower` (ASCII as given by `Char.toLower`). -/
def lowerStr (s : String) : String :=
  ⟨s.data.map Char.toLower⟩

/-- `pat` occurs as a contiguous subsequence of `hay` (Python `pat in hay`). -/
def containsSeq (hay pat : List Char) : Bool :=
  match hay with
  | [] => pat.isEmpty
  | _ :: t => pat.isPrefixOf hay || containsSeq t pat

/-- Split a character list at every occurrence of `sep` (Python `str.split(sep)`). -/
def splitCharSep (sep : Char) : List Char → List (List Char)
  | [] => [[]]
  | c :: cs =>
    let r := splitCharSep sep cs
    if c = sep then [] :: r
    else match r with
      | h :: t => (c :: h) :: t
      | [] => [[c]]

/-- Split a string on `'/'` into its components. -/
def splitSlash (s : String) : List String :=
  (splitCharSep '/' s.data).map (fun l => ⟨l⟩)

/-- Extension part of `os.path.splitext(name)[1]` for a basename without
separators: the part from the last dot, unless all characters before that
dot are dots (leading dots do not start an extension). -/
def splitextExt (name : List Char) : List Char :=
  let stripped := name.dropWhile (fun c => c = '.')
  if stripped.contains '.' then
    '.' :: (stripped.reverse.takeWhile (fun c => c ≠ '.')).reverse
  else []

/-- `pathlib.PurePath.suffix` of a final path component `name`: `name[i:]`
for the last dot index `i` when `0 < i < len(name) - 1`, else empty. -/
def pathSuffix (name : List Char) : List Char :=
  if name.contains '.' then
    let pre := name.reverse.takeWhile (fun c => c ≠ '.')
    if pre.length = 0 ∨ pre.length + 2 > name.length then []
    else '.' :: pre.reverse
  else []

/-- `Path.suffix` of the final component, as a string. -/
def pathSuffixStr (name : String) : String :=
  ⟨pathSuffix name.data⟩

/-- Glob matching of one path component: literal characters, `?` for one
character, `*` for any (possibly empty) run of characters. Structural on
the pattern. -/
def globMatch : List Char → List Char → Bool
  | [], name => name.isEmpty
  | c :: ps, name =>
    if c = '*' then (List.tails name).any (fun suf => globMatch ps suf)
    else match name with
      | [] => false
      | n :: ns => (c = '?' || c = n) && globMatch ps ns

/-- `fnmatch`-style matching as used by `Path.rglob` on one component:
a name starting with a dot is only matched by a pattern starting with a
dot. -/
def fnmatchGlob (pattern name : String) : Bool :=
  if name.data.head? = some '.' && pattern.data.head? ≠ some '.' then false
  else globMatch pattern.data name.data

/-- Python `"\n".join parts`. -/
def joinNewline : List String → String
  | [] => ""
  | [s] => s
  | s :: rest => s ++ "\n" ++ joinNewline rest

/-- A path segment (one path component). -/
abbrev Seg := String

/-- A directory entry: a regular file with text content, or a directory. -/
inductive EntryKind where
  | file (content : String)
  | dir
deriving DecidableEq, Repr

/-- Status of the workspace root directory `AGENT_FILES_WORKSPACE`. -/
inductive RootStatus where
  | missing
  | notDir
  | inaccessible
  | ok
deriving DecidableEq, Repr

/-- The file-system state seen by the agent: the resolved absolute root
path (as segments), the root's status, and all entries under the root as
relative segment paths paired with their kind, in enumeration order. -/
structure FS where
  base : List Seg
  rootStatus : RootStatus
  entries : List (List Seg × EntryKind)
deriving DecidableEq, Repr

/-- First entry with key `rel` in a raw entry list. -/
def lookupL (l : List (List Seg × EntryKind)) (rel : List Seg) : Option EntryKind :=
  (l.find? (fun e => e.fst == rel)).map (fun e => e.snd)

/-- First entry stored under the relative path `rel`. -/
def lookupEntry (fs : FS) (rel : List Seg) : Option EntryKind :=
  lookupL fs.entries rel

/-- `Path.exists()` for an absolute path `p` (only paths at or under the
root are modelled; the root itself exists whenever it is not missing). -/
def pathExists (fs : FS) (p : List Seg) : Bool :=
  (p == fs.base) ||
    (fs.base.isPrefixOf p && (lookupEntry fs (p.drop fs.base.length)).isSome)

/-- Content of the regular file at absolute path `p`, if any
(`Path.is_file()` plus `Path.read_text()`). -/
def contentAt (fs : FS) (p : List Seg) : Option String :=
  if p = fs.base then none
  else if fs.base.isPrefixOf p then
    match lookupEntry fs (p.drop fs.base.length) with
    | some (EntryKind.file c) => some c
    | _ => none
  else none

/-- The proper nonempty prefixes of `rel`: the relative paths of the
ancestor directories `mkdir(parents=True)` has to provide. -/
def properParents (rel : List Seg) : List (List Seg) :=
  (List.range' 1 (rel.length - 1)).map (fun n => rel.take n)

/-- The directory entries `mkdir(parents=True)` adds for the target at
relative path `rel`: the ancestors that do not exist yet, appended in
order at the end of the enumeration. -/
def newDirs (fs : FS) (rel : List Seg) : List (List Seg × EntryKind) :=
  ((properParents rel).filter (fun q => (lookupEntry fs q).isNone)).map
    (fun q => (q, EntryKind.dir))

/-- `final.parent.mkdir(parents=True, exist_ok=True)` for the target at
relative path `rel`: fails (an exception, `none`) when the root is not a
usable directory or some ancestor exists as a regular file, otherwise adds
the missing ancestor directories. -/
def mkdirParents (fs : FS) (rel : List Seg) : Option FS :=
  if fs.rootStatus ≠ RootStatus.ok then none
  else if (properParents rel).any (fun q =>
      match lookupEntry fs q with
      | some (EntryKind.file _) => true
      | _ => false) then none
  else some { fs with entries := fs.entries ++ newDirs fs rel }

/-- `base_path.rglob(pattern)`: the entries whose final component matches
the glob pattern, in enumeration order. -/
def matchingEntries (fs : FS) (pattern : String) : List (List Seg × EntryKind) :=
  fs.entries.filter (fun e =>
    match e.fst.getLast? with
    | some name => fnmatchGlob pattern name
    | none => false)

/-- Depth comparison used as the sort key:
`len(p.relative_to(base_path).parts)`. -/
def depthLe (a b : List Seg × EntryKind) : Prop :=
  a.fst.length ≤ b.fst.length

instance : DecidableRel depthLe := fun a b => Nat.decLe a.fst.length b.fst.length

instance : IsTotal (List Seg × EntryKind) depthLe :=
  ⟨fun a b => Nat.le_total a.fst.length b.fst.length⟩

instance : IsTrans (List Seg × EntryKind) depthLe :=
  ⟨fun _ _ _ hab hbc => Nat.le_trans hab hbc⟩

/-- `found_files.sort(key=lambda p: len(p.relative_to(base_path).parts))`:
a stable sort by depth. -/
def sortByDepth (l : List (List Seg × EntryKind)) : List (List Seg × EntryKind) :=
  List.insertionSort depthLe l

/-- `'/' in relative_filepath or '\\' in relative_filepath`. -/
def containsSep (loc : String) : Bool :=
  hasChar loc '/' || hasChar loc '\\'

/-- The `rglob` search pattern for a bare-name locator: the exact name when
it carries an extension, else `name + ".*"`. -/
def bareSearchPattern (loc : String) : String :=
  if splitextExt loc.data ≠ [] then loc
  else ⟨loc.data ++ ['.', '*']⟩

/-- `(base_path / relative_filepath).resolve(strict=False)` without
symlinks: an absolute locator replaces the base, empty and `.` components
are dropped, `..` pops one component (staying at the file-system root). -/
def joinResolve (base : List Seg) (loc : String) : List Seg :=
  let init : List Seg := if loc.data.head? = some '/' then [] else base
  (splitSlash loc).foldl
    (fun acc s =>
      if s = "" ∨ s = "." then acc
      else if s = ".." then acc.dropLast
      else acc ++ [s])
    init

/-- The candidate path `final_resolved_path` computed before the security
check: a locator with a separator is joined and canonicalized; a bare name
is searched for under the root, taking the shallowest (first, for ties)
match, and falls back to `root / locator` for a fresh file. -/
def resolveCandidate (fs : FS) (loc : String) : List Seg :=
  if containsSep loc then joinResolve fs.base loc
  else
    match sortByDepth (matchingEntries fs (bareSearchPattern loc)) with
    | m :: _ => fs.base ++ m.fst
    | [] => joinResolve fs.base loc

/-- The security check and parent-directory creation on the candidate:
return the candidate when it is at or under the root (creating missing
parent directories when the candidate does not exist yet), `None`
otherwise or when directory creation raises. -/
def finishResolve (fs : FS) (final : List Seg) : Option (List Seg) × FS :=
  if fs.base.isPrefixOf final then
    if pathExists fs final then (some final, fs)
    else
      match mkdirParents fs (final.drop fs.base.length) with
      | some fs' => (some final, fs')
      | none => (none, fs)
  else (none, fs)

/-- `_resolve_safe_path`: `None` when the root cannot be resolved
(`strict=True` raises), when the bare-name search cannot enumerate the
root, when the candidate escapes the root, or when parent creation fails;
otherwise the safe absolute path.  All exceptions are caught and collapse
to `None`. -/
def resolveSafePath (fs : FS) (loc : String) : Option (List Seg) × FS :=
  if fs.rootStatus = RootStatus.missing then (none, fs)
  else if ¬ containsSep loc ∧ fs.rootStatus ≠ RootStatus.ok then (none, fs)
  else finishResolve fs (resolveCandidate fs loc)

/-- Behaviour of the external PyPDF2 library on one file content: a
successful parse with the per-page `extract_text()` results (empty string
for a page with no extractable text or a page-level error), a
`PdfReadError` carrying the encryption status the reader object exposes
(`none` when `PdfReader(f)` itself failed) and the error message, or any
other exception. -/
inductive PdfLibResult where
  | ok (isEncrypted : Bool) (pages : List String)
  | readError (readerEncrypted : Option Bool) (msg : String)
  | otherError (msg : String)
deriving DecidableEq, Repr

/-- The password-related keywords `read_text_file` looks for in a
`PdfReadError` message. -/
def passwordKeywords : List String := ["password", "decrypt", "encrypted file"]

/-- `any(keyword in error_message_lower for keyword in password_keywords)`. -/
def containsPwKeyword (msg : String) : Bool :=
  passwordKeywords.any (fun k => containsSeq (lowerStr msg).data k.data)

/-- Error message of `read_text_file` for a password-protected PDF. -/
def pwMsg (loc : String) : String :=
  "Error: PDF file '" ++ loc ++ "' is password-protected and requires a password to extract text."

/-- Error message of `read_text_file` for a corrupted or invalid PDF. -/
def corruptMsg (loc : String) : String :=
  "Error: Could not read PDF file '" ++ loc ++ "'. The file may be corrupted or not a valid PDF."

/-- Warning returned when no text could be extracted and the reader
reports the PDF encrypted. -/
def warnEncMsg : String :=
  "Warning: No text could be extracted from the PDF. The file might be image-based, empty, or encrypted in a way that prevents text extraction without a password."

/-- Warning returned when no text could be extracted from a plain PDF. -/
def warnPlainMsg : String :=
  "Warning: No text could be extracted from the PDF. The file might be image-based or empty."

/-- The PDF branch of `read_text_file` (lines 152-214 of `agent.py`),
dispatching on the library's behaviour. -/
def pdfOutcomeMessage (loc : String) (r : PdfLibResult) : String :=
  match r with
  | PdfLibResult.ok isEnc pages =>
    let parts := pages.filter (fun t => t ≠ "")
    if parts = [] then
      if isEnc then warnEncMsg else warnPlainMsg
    else joinNewline parts
  | PdfLibResult.readError readerEnc msg =>
    if (readerEnc = some true) ∧ containsPwKeyword msg then pwMsg loc
    else if containsPwKeyword msg then pwMsg loc
    else corruptMsg loc
  | PdfLibResult.otherError msg =>
    "Error: An unexpected error occurred while processing PDF '" ++ loc ++ "'. Details: " ++ msg

/-- Generic failure message of `read_text_file` when resolution fails. -/
def readInvalidMsg : String :=
  "Error: Invalid or disallowed file path. Path must be within the agent's designated workspace."

/-- Failure message of `write_text_file` when resolution fails. -/
def writeInvalidMsg : String :=
  "Error: Invalid or disallowed file path for writing. Path must be within the agent's designated workspace."

/-- `read_text_file`'s message for a missing or non-regular file. -/
def notFoundMsg (loc : String) : String :=
  "Error: File not found or is not a regular file at '" ++ loc ++ "'."

/-- Message when PyPDF2 failed to import. -/
def pdfLibMissingMsg : String :=
  "Error: PDF processing library (e.g., PyPDF2) not installed. Cannot read PDF files."

/-- Success message of `write_text_file`. -/
def successMsg (loc : String) : String :=
  "Success: Content written to file '" ++ loc ++ "'."

/-- `read_text_file(relative_filepath)`: resolves the locator, rejects
non-files, extracts PDFs through the library oracle, and otherwise returns
the text content.  Returns the reply string and the file system afterward. -/
def read_text_file (pdfLib : String → PdfLibResult) (pypdf2Installed : Bool)
    (fs : FS) (loc : String) : String × FS :=
  match resolveSafePath fs loc with
  | (none, fs') => (readInvalidMsg, fs')
  | (some p, fs') =>
    match contentAt fs' p with
    | none => (notFoundMsg loc, fs')
    | some c =>
      if lowerStr (pathSuffixStr ((p.getLast?).getD "")) = ".pdf" then
        if pypdf2Installed = false then (pdfLibMissingMsg, fs')
        else (pdfOutcomeMessage loc (pdfLib c), fs')
      else (c, fs')

/-- In-place overwrite of the entry stored at key `rel` with a regular
file holding `content`. -/
def mapUpd (l : List (List Seg × EntryKind)) (rel : List Seg) (content : String) :
    List (List Seg × EntryKind) :=
  l.map (fun e => if e.fst = rel then (rel, EntryKind.file content) else e)

/-- `safe_path.write_text(content)`: overwrite a regular file in place or
create a new file whose parent directory exists; raises (`none`) on a
directory target or a missing/non-directory parent. -/
def writeTextAt (fs : FS) (p : List Seg) (content : String) : Option FS :=
  if p = fs.base then none
  else if ¬ fs.base.isPrefixOf p then none
  else
    let rel := p.drop fs.base.length
    match lookupEntry fs rel with
    | some EntryKind.dir => none
    | some (EntryKind.file _) =>
      some { fs with entries := mapUpd fs.entries rel content }
    | none =>
      let parent := rel.dropLast
      if (parent = [] ∧ fs.rootStatus = RootStatus.ok) ∨
          lookupEntry fs parent = some EntryKind.dir then
        some { fs with entries := fs.entries ++ [(rel, EntryKind.file content)] }
      else none

/-- `write_text_file(relative_filepath, content)`. -/
def write_text_file (fs : FS) (loc content : String) : String × FS :=
  match resolveSafePath fs loc with
  | (none, fs') => (writeInvalidMsg, fs')
  | (some p, fs') =>
    match writeTextAt fs' p content with
    | some fs2 => (successMsg loc, fs2)
    | none => ("Error: Could not write to file. Details: (filesystem error)", fs')

/-- `list_files_in_workspace()`: the names of the immediate entries of the
root, `[]` when the root is missing, not a directory, or enumeration
raises `OSError`. -/
def list_files_in_workspace (fs : FS) : List String :=
  match fs.rootStatus with
  | RootStatus.missing => []
  | RootStatus.notDir => []
  | RootStatus.inaccessible => []
  | RootStatus.ok =>
    (fs.entries.filter (fun e => e.fst.length = 1)).map
      (fun e => (e.fst.head?).getD "")

/-! ### Lemmas about entry lookup -/

theorem lookupL_nil (rel : List Seg) : lookupL [] rel = none := rfl

theorem lookupL_cons (e : List Seg × EntryKind) (t : List (List Seg × EntryKind))
    (rel : List Seg) :
    lookupL (e :: t) rel = if e.fst = rel then some e.snd else lookupL t rel := by
  unfold lookupL
  by_cases h : e.fst = rel
  · rw [List.find?_cons_of_pos _ (by simpa using h), if_pos h]
    rfl
  · rw [List.find?_cons_of_neg _ (by simpa using h), if_neg h]

theorem lookupL_eq_none {l : List (List Seg × EntryKind)} {rel : List Seg}
    (h : ∀ e ∈ l, e.fst ≠ rel) : lookupL l rel = none := by
  induction l with
  | nil => rfl
  | cons e t ih =>
    rw [lookupL_cons, if_neg (h e (List.mem_cons_self e t))]
    exact ih (fun x hx => h x (List.mem_cons_of_mem e hx))

theorem lookupL_isSome_of_mem {l : List (List Seg × EntryKind)} {rel : List Seg}
    {k : EntryKind} (h : (rel, k) ∈ l) : (lookupL l rel).isSome = true := by
  induction l with
  | nil => cases h
  | cons e t ih =>
    rw [lookupL_cons]
    by_cases hf : e.fst = rel
    · simp [hf]
    · rw [if_neg hf]
      rcases List.mem_cons.mp h with he | ht
      · exact absurd (by rw [← he]) hf
      · exact ih ht

theorem lookupL_of_mem_nodup {l : List (List Seg × EntryKind)} {rel : List Seg}
    {k : EntryKind} (hnd : (l.map Prod.fst).Nodup) (h : (rel, k) ∈ l) :
    lookupL l rel = some k := by
  induction l with
  | nil => cases h
  | cons e t ih =>
    rw [List.map_cons, List.nodup_cons] at hnd
    rw [lookupL_cons]
    rcases List.mem_cons.mp h with he | ht
    · rw [if_pos (by rw [← he]), ← he]
    · by_cases hf : e.fst = rel
      · exact absurd (hf ▸ List.mem_map_of_mem Prod.fst ht) hnd.1
      · rw [if_neg hf]
        exact ih hnd.2 ht

theorem lookupL_append_left {l₁ l₂ : List (List Seg × EntryKind)} {rel : List Seg}
    (h : (lookupL l₁ rel).isSome = true) :
    lookupL (l₁ ++ l₂) rel = lookupL l₁ rel := by
  induction l₁ with
  | nil => simp [lookupL] at h
  | cons e t ih =>
    rw [List.cons_append, lookupL_cons, lookupL_cons]
    by_cases hf : e.fst = rel
    · rw [if_pos hf, if_pos hf]
    · rw [if_neg hf, if_neg hf]
      rw [lookupL_cons, if_neg hf] at h
      exact ih h

theorem lookupL_append_right {l₁ l₂ : List (List Seg × EntryKind)} {rel : List Seg}
    (h : lookupL l₁ rel = none) :
    lookupL (l₁ ++ l₂) rel = lookupL l₂ rel := by
  induction l₁ with
  | nil => rfl
  | cons e t ih =>
    rw [lookupL_cons] at h
    by_cases hf : e.fst = rel
    · rw [if_pos hf] at h
      cases h
    · rw [if_neg hf] at h
      rw [List.cons_append, lookupL_cons, if_neg hf]
      exact ih h

theorem lookupL_map_dir {ps : List (List Seg)} {q : List Seg} (h : q ∈ ps) :
    lookupL (ps.map (fun n => (n, EntryKind.dir))) q = some EntryKind.dir := by
  induction ps with
  | nil => cases h
  | cons p t ih =>
    rw [List.map_cons, lookupL_cons]
    by_cases hp : p = q
    · rw [if_pos hp]
    · rw [if_neg hp]
      rcases List.mem_cons.mp h with he | ht
      · exact absurd he.symm hp
      · exact ih ht

theorem lookupL_mapUpd_self {l : List (List Seg × EntryKind)} {rel : List Seg}
    {content : String} (h : (lookupL l rel).isSome = true) :
    lookupL (mapUpd l rel content) rel = some (EntryKind.file content) := by
  induction l with
  | nil => simp [lookupL] at h
  | cons e t ih =>
    rw [mapUpd, List.map_cons]
    by_cases hf : e.fst = rel
    · rw [if_pos hf, lookupL_cons, if_pos rfl]
    · rw [if_neg hf, lookupL_cons, if_neg hf]
      rw [lookupL_cons, if_neg hf] at h
      exact ih h

theorem lookupL_mapUpd_other {l : List (List Seg × EntryKind)} {rel q : List Seg}
    {content : String} (hq : q ≠ rel) :
    lookupL (mapUpd l rel content) q = lookupL l q := by
  induction l with
  | nil => rfl
  | cons e t ih =>
    rw [mapUpd, List.map_cons]
    by_cases hf : e.fst = rel
    · rw [if_pos hf, lookupL_cons, lookupL_cons, if_neg (fun hh => hq hh.symm),
        if_neg (fun hh => hq (hf ▸ hh).symm)]
      exact ih
    · rw [if_neg hf, lookupL_cons, lookupL_cons]
      by_cases hg : e.fst = q
      · rw [if_pos hg, if_pos hg]
      · rw [if_neg hg, if_neg hg]
        exact ih

/-! ### Lemmas about `properParents` -/

theorem mem_properParents {rel q : List Seg} :
    q ∈ properParents rel ↔ ∃ n, 1 ≤ n ∧ n < rel.length ∧ q = rel.take n := by
  unfold properParents
  simp only [List.mem_map, List.mem_range'_1]
  constructor
  · rintro ⟨n, ⟨h1, h2⟩, rfl⟩
    exact ⟨n, h1, by omega, rfl⟩
  · rintro ⟨n, h1, h2, rfl⟩
    exact ⟨n, ⟨h1, by omega⟩, rfl⟩

theorem length_of_mem_properParents {rel q : List Seg} (h : q ∈ properParents rel) :
    q.length < rel.length := by
  rcases mem_properParents.mp h with ⟨n, h1, h2, rfl⟩
  rw [List.length_take]
  omega

theorem dropLast_mem_properParents {rel : List Seg} (h : 2 ≤ rel.length) :
    rel.dropLast ∈ properParents rel := by
  rw [mem_properParents]
  exact ⟨rel.length - 1, by omega, by omega, List.dropLast_eq_take rel⟩

/-! ### Lemmas about splitting and joining locators -/

theorem splitCharSep_no_sep {sep : Char} {l : List Char} (h : ∀ c ∈ l, c ≠ sep) :
    splitCharSep sep l = [l] := by
  induction l with
  | nil => rfl
  | cons c cs ih =>
    have hc : c ≠ sep := h c (List.mem_cons_self c cs)
    have ht : splitCharSep sep cs = [cs] :=
      ih (fun x hx => h x (List.mem_cons_of_mem c hx))
    simp only [splitCharSep, ht, if_neg hc]

theorem hasChar_false_forall {s : String} {c : Char} (h : hasChar s c = false) :
    ∀ x ∈ s.data, x ≠ c := by
  intro x hx he
  subst he
  have : hasChar s x = true := by
    unfold hasChar
    exact List.any_eq_true.mpr ⟨x, hx, by simp⟩
  rw [this] at h
  cases h

theorem splitSlash_no_sep {loc : String} (h : hasChar loc '/' = false) :
    splitSlash loc = [loc] := by
  unfold splitSlash
  rw [splitCharSep_no_sep (hasChar_false_forall h)]
  rfl

theorem head?_ne_of_hasChar_false {loc : String} {c : Char}
    (h : hasChar loc c = false) : loc.data.head? ≠ some c := by
  cases hd : loc.data with
  | nil => simp
  | cons x xs =>
    simp only [List.head?_cons]
    intro he
    exact hasChar_false_forall h x (by rw [hd]; exact List.mem_cons_self x xs)
      (Option.some.inj he)

theorem joinResolve_plain {base : List Seg} {loc : String}
    (h1 : hasChar loc '/' = false) (h2 : loc ≠ "") (h3 : loc ≠ ".")
    (h4 : loc ≠ "..") : joinResolve base loc = base ++ [loc] := by
  unfold joinResolve
  rw [splitSlash_no_sep h1, if_neg (head?_ne_of_hasChar_false h1)]
  simp only [List.foldl_cons, List.foldl_nil]
  rw [if_neg (by rintro (h | h) <;> [exact h2 h; exact h3 h]), if_neg h4]

/-! ### Lemmas about glob matching -/

theorem globMatch_append_literal {s p : List Char}
    (h : ∀ c ∈ s, c ≠ '*') : globMatch (s ++ p) s = globMatch p [] := by
  induction s with
  | nil => rfl
  | cons c cs ih =>
    have hc : c ≠ '*' := h c (List.mem_cons_self c cs)
    simp only [List.cons_append, globMatch, if_neg hc, List.append_eq]
    rw [ih (fun x hx => h x (List.mem_cons_of_mem c hx))]
    simp

theorem bareSearchPattern_noExt {loc : String} (h : splitextExt loc.data = []) :
    bareSearchPattern loc = ⟨loc.data ++ ['.', '*']⟩ := by
  unfold bareSearchPattern
  rw [if_neg (by simp [h])]

theorem fnmatchGlob_self_noExt {loc : String}
    (hstar : hasChar loc '*' = false)
    (hnoext : splitextExt loc.data = []) :
    fnmatchGlob (bareSearchPattern loc) loc = false := by
  rw [bareSearchPattern_noExt hnoext]
  unfold fnmatchGlob
  split
  · rfl
  · rw [show (String.mk (loc.data ++ ['.', '*'])).data = loc.data ++ ['.', '*'] from rfl,
      globMatch_append_literal (hasChar_false_forall hstar)]
    rfl

/-! ### Lemmas about the file-system primitives -/

theorem append_ne_base {base rel : List Seg} (h : rel ≠ []) : base ++ rel ≠ base := by
  intro he
  exact h (by simpa using he)

theorem pathExists_append {fs : FS} {rel : List Seg} (h : rel ≠ []) :
    pathExists fs (fs.base ++ rel) = (lookupEntry fs rel).isSome := by
  unfold pathExists
  rw [List.drop_left]
  have h1 : (fs.base ++ rel == fs.base) = false :=
    beq_eq_false_iff_ne.mpr (append_ne_base h)
  have h2 : fs.base.isPrefixOf (fs.base ++ rel) = true :=
    List.isPrefixOf_iff_prefix.mpr (List.prefix_append _ _)
  rw [h1, h2]
  simp [lookupEntry]

theorem contentAt_append {fs : FS} {rel : List Seg} (h : rel ≠ []) :
    contentAt fs (fs.base ++ rel) =
      match lookupEntry fs rel with
      | some (EntryKind.file c) => some c
      | _ => none := by
  unfold contentAt
  rw [if_neg (append_ne_base h),
    if_pos (List.isPrefixOf_iff_prefix.mpr (List.prefix_append _ _)), List.drop_left]

/-! ### Lemmas about `mkdirParents` -/

theorem newDirs_of_missing {fs : FS} {rel : List Seg}
    (hpar : ∀ q ∈ properParents rel, lookupEntry fs q = none) :
    newDirs fs rel = (properParents rel).map (fun n => (n, EntryKind.dir)) := by
  unfold newDirs
  rw [List.filter_eq_self.mpr]
  intro q hq
  simp [hpar q hq]

theorem mkdirParents_of_missing {fs : FS} {rel : List Seg}
    (hroot : fs.rootStatus = RootStatus.ok)
    (hpar : ∀ q ∈ properParents rel, lookupEntry fs q = none) :
    mkdirParents fs rel = some { fs with
      entries := fs.entries ++ (properParents rel).map (fun n => (n, EntryKind.dir)) } := by
  unfold mkdirParents
  rw [if_neg (by simp [hroot]), if_neg, newDirs_of_missing hpar]
  intro hany
  rcases List.any_eq_true.mp hany with ⟨q, hq, hmatch⟩
  rw [hpar q hq] at hmatch
  cases hmatch

theorem properParents_singleton (s : Seg) : properParents [s] = [] := rfl

theorem mkdirParents_singleton {fs : FS} (hroot : fs.rootStatus = RootStatus.ok)
    (s : Seg) : mkdirParents fs [s] = some { fs with entries := fs.entries ++ [] } := by
  have := @mkdirParents_of_missing fs [s] hroot
    (by rw [properParents_singleton]; intro q hq; cases hq)
  rw [properParents_singleton] at this
  simpa using this

/-! ### Lemmas about sorting and the resolver -/

theorem head_sortByDepth_min {l : List (List Seg × EntryKind)}
    {m : List Seg × EntryKind} {t : List (List Seg × EntryKind)}
    (hs : sortByDepth l = m :: t) :
    m ∈ l ∧ ∀ e ∈ l, m.fst.length ≤ e.fst.length := by
  have hperm : (sortByDepth l).Perm l := List.perm_insertionSort depthLe l
  have hsorted : List.Sorted depthLe (sortByDepth l) := List.sorted_insertionSort depthLe l
  rw [hs] at hperm hsorted
  refine ⟨hperm.mem_iff.mp (List.mem_cons_self m t), ?_⟩
  intro e he
  rcases List.mem_cons.mp (hperm.mem_iff.mpr he) with rfl | hmem
  · exact Nat.le_refl _
  · exact List.rel_of_sorted_cons hsorted e hmem

theorem resolveSafePath_sep {fs : FS} {loc : String}
    (hroot : fs.rootStatus ≠ RootStatus.missing) (hsep : containsSep loc = true) :
    resolveSafePath fs loc = finishResolve fs (joinResolve fs.base loc) := by
  unfold resolveSafePath resolveCandidate
  rw [if_neg hroot, if_neg (by simp [hsep]), if_pos hsep]

theorem resolveSafePath_bare {fs : FS} {loc : String}
    (hroot : fs.rootStatus = RootStatus.ok) :
    resolveSafePath fs loc = finishResolve fs (resolveCandidate fs loc) := by
  unfold resolveSafePath
  rw [if_neg (by simp [hroot]), if_neg (by simp [hroot])]

theorem resolveCandidate_bare_found {fs : FS} {loc : String}
    {m : List Seg × EntryKind} (hsep : containsSep loc = false)
    (hm : (sortByDepth (matchingEntries fs (bareSearchPattern loc))).head? = some m) :
    resolveCandidate fs loc = fs.base ++ m.fst := by
  unfold resolveCandidate
  rw [if_neg (by simp [hsep])]
  cases hs : sortByDepth (matchingEntries fs (bareSearchPattern loc)) with
  | nil => rw [hs] at hm; cases hm
  | cons a t =>
    rw [hs] at hm
    simp only [List.head?_cons, Option.some.injEq] at hm
    rw [hm]

theorem mem_matchingEntries_sub {fs : FS} {pattern : String}
    {e : List Seg × EntryKind} (h : e ∈ matchingEntries fs pattern) :
    e ∈ fs.entries :=
  List.mem_of_mem_filter h

theorem finishResolve_exists {fs : FS} {final : List Seg}
    (hpre : fs.base <+: final) (hex : pathExists fs final = true) :
    finishResolve fs final = (some final, fs) := by
  unfold finishResolve
  rw [if_pos (List.isPrefixOf_iff_prefix.mpr hpre), if_pos hex]

theorem finishResolve_notPrefix {fs : FS} {final : List Seg}
    (hpre : ¬ fs.base <+: final) :
    finishResolve fs final = (none, fs) := by
  unfold finishResolve
  rw [if_neg (fun hh => hpre (List.isPrefixOf_iff_prefix.mp hh))]

theorem resolve_some_prefix {fs : FS} {loc : String} {p : List Seg} {fs' : FS}
    (h : resolveSafePath fs loc = (some p, fs')) : fs.base <+: p := by
  unfold resolveSafePath at h
  split at h
  · cases h
  · split at h
    · cases h
    · unfold finishResolve at h
      split at h
      · rename_i hpre
        split at h
        · cases h
          exact List.isPrefixOf_iff_prefix.mp hpre
        · split at h
          · cases h
            exact List.isPrefixOf_iff_prefix.mp hpre
          · cases h
      · cases h

theorem resolve_none_state {fs : FS} {loc : String}
    (h : (resolveSafePath fs loc).fst = none) : resolveSafePath fs loc = (none, fs) := by
  by_cases h1 : fs.rootStatus = RootStatus.missing
  · unfold resolveSafePath
    rw [if_pos h1]
  · by_cases h2 : ¬ containsSep loc = true ∧ fs.rootStatus ≠ RootStatus.ok
    · unfold resolveSafePath
      rw [if_neg h1, if_pos h2]
    · unfold resolveSafePath at h ⊢
      rw [if_neg h1, if_neg h2] at h ⊢
      unfold finishResolve at h ⊢
      by_cases h3 : fs.base.isPrefixOf (resolveCandidate fs loc) = true
      · rw [if_pos h3] at h ⊢
        by_cases h4 : pathExists fs (resolveCandidate fs loc) = true
        · rw [if_pos h4] at h
          simp at h
        · rw [if_neg h4] at h ⊢
          cases hmk : mkdirParents fs (List.drop fs.base.length (resolveCandidate fs loc)) with
          | some fs2 =>
            rw [hmk] at h
            simp at h
          | none => rfl
      · rw [if_neg h3]

theorem resolve_some_preserves {fs : FS} {loc : String} {p : List Seg} {fs' : FS}
    (h : resolveSafePath fs loc = (some p, fs')) :
    fs'.base = fs.base ∧ fs'.rootStatus = fs.rootStatus := by
  unfold resolveSafePath at h
  split at h
  · cases h
  · split at h
    · cases h
    · unfold finishResolve at h
      split at h
      · split at h
        · cases h
          exact ⟨rfl, rfl⟩
        · split at h
          · rename_i fs2 heq
            cases h
            unfold mkdirParents at heq
            split at heq
            · cases heq
            · split at heq
              · cases heq
              · cases heq
                exact ⟨rfl, rfl⟩
          · cases h
      · cases h

theorem getLast?_append_of_ne_nil {l l' : List Seg} (h : l' ≠ []) :
    (l ++ l').getLast? = l'.getLast? := by
  rw [List.getLast?_append]
  cases hx : l'.getLast? with
  | some x => rfl
  | none =>
    exfalso
    apply h
    cases l' with
    | nil => rfl
    | cons a t => rw [List.getLast?_eq_getLast _ (by simp)] at hx; cases hx

/-- Resolution of a separator-containing locator whose target and ancestor
directories do not exist yet: the path is returned and the ancestor chain
is created. -/
theorem resolve_pathform_new {fs : FS} {loc : String} {rel : List Seg}
    (hroot : fs.rootStatus = RootStatus.ok)
    (hsep : containsSep loc = true)
    (hjoin : joinResolve fs.base loc = fs.base ++ rel)
    (hrel : rel ≠ [])
    (htgt : lookupEntry fs rel = none)
    (hpar : ∀ q ∈ properParents rel, lookupEntry fs q = none) :
    resolveSafePath fs loc =
      (some (fs.base ++ rel),
       { fs with entries := fs.entries ++
          (properParents rel).map (fun n => (n, EntryKind.dir)) }) := by
  rw [resolveSafePath_sep (by simp [hroot]) hsep, hjoin]
  unfold finishResolve
  have hex : pathExists fs (fs.base ++ rel) = false := by
    rw [pathExists_append hrel, htgt]
    rfl
  rw [if_pos (List.isPrefixOf_iff_prefix.mpr (List.prefix_append _ _)),
    if_neg (by simp [hex]), List.drop_left, mkdirParents_of_missing hroot hpar]

theorem writeTextAt_new {fs1 : FS} {rel : List Seg} {content : String}
    (hrel : rel ≠ [])
    (hlk : lookupEntry fs1 rel = none)
    (hparent : (rel.dropLast = [] ∧ fs1.rootStatus = RootStatus.ok) ∨
      lookupEntry fs1 rel.dropLast = some EntryKind.dir) :
    writeTextAt fs1 (fs1.base ++ rel) content =
      some { fs1 with entries := fs1.entries ++ [(rel, EntryKind.file content)] } := by
  unfold writeTextAt
  rw [if_neg (append_ne_base hrel),
    if_neg (fun hh => hh (List.isPrefixOf_iff_prefix.mpr (List.prefix_append _ _))),
    List.drop_left]
  simp only [hlk]
  rw [if_pos hparent]

theorem writeTextAt_overwrite {fs1 : FS} {rel : List Seg} {content old : String}
    (hrel : rel ≠ [])
    (hlk : lookupEntry fs1 rel = some (EntryKind.file old)) :
    writeTextAt fs1 (fs1.base ++ rel) content =
      some { fs1 with entries := mapUpd fs1.entries rel content } := by
  unfold writeTextAt
  rw [if_neg (append_ne_base hrel),
    if_neg (fun hh => hh (List.isPrefixOf_iff_prefix.mpr (List.prefix_append _ _))),
    List.drop_left]
  simp only [hlk]

theorem dirs_key_ne_rel {rel : List Seg} {e : List Seg × EntryKind}
    (he : e ∈ (properParents rel).map (fun n => (n, EntryKind.dir))) :
    e.fst ≠ rel := by
  rcases List.mem_map.mp he with ⟨q, hq, rfl⟩
  intro h
  have hlt := length_of_mem_properParents hq
  rw [show (q, EntryKind.dir).fst = q from rfl] at h
  rw [h] at hlt
  omega

theorem lookup_dirs_created {fs : FS} {rel q : List Seg}
    (hpar : ∀ x ∈ properParents rel, lookupEntry fs x = none)
    (hq : q ∈ properParents rel) :
    lookupL (fs.entries ++ (properParents rel).map (fun n => (n, EntryKind.dir))) q =
      some EntryKind.dir := by
  rw [lookupL_append_right (show lookupL fs.entries q = none from hpar q hq)]
  exact lookupL_map_dir hq

theorem lookup_newdirs_tgt_none {fs : FS} {rel : List Seg}
    (htgt : lookupEntry fs rel = none) :
    lookupL (fs.entries ++ (properParents rel).map (fun n => (n, EntryKind.dir))) rel =
      none := by
  rw [lookupL_append_right (show lookupL fs.entries rel = none from htgt)]
  exact lookupL_eq_none (fun e he => dirs_key_ne_rel he)

/-- Resolution of a plain bare name with no match anywhere under the
root: the candidate is the fresh-file target `root / locator`. -/
theorem resolve_bare_fallback {fs : FS} {loc : String}
    (hroot : fs.rootStatus = RootStatus.ok) (hsep : containsSep loc = false)
    (h2 : loc ≠ "") (h3 : loc ≠ ".") (h4 : loc ≠ "..")
    (hnone : matchingEntries fs (bareSearchPattern loc) = []) :
    (resolveSafePath fs loc).fst = some (fs.base ++ [loc]) := by
  have hslash : hasChar loc '/' = false := by
    unfold containsSep at hsep
    exact (Bool.or_eq_false_iff.mp hsep).1
  have hcand : resolveCandidate fs loc = fs.base ++ [loc] := by
    unfold resolveCandidate
    rw [if_neg (by simp [hsep]), hnone]
    exact joinResolve_plain hslash h2 h3 h4
  rw [resolveSafePath_bare hroot, hcand]
  unfold finishResolve
  rw [if_pos (List.isPrefixOf_iff_prefix.mpr (List.prefix_append _ _))]
  by_cases hex : pathExists fs (fs.base ++ [loc]) = true
  · rw [if_pos hex]
  · rw [if_neg hex, List.drop_left, mkdirParents_singleton hroot]

/-! ### Distinctness of the user-facing messages -/

theorem string_ne_of_get {s t : String} {i : Nat} (h : s.data[i]? ≠ t.data[i]?) :
    s ≠ t := fun he => h (by rw [he])

theorem data_append3 (a b c : String) :
    (a ++ b ++ c).data = a.data ++ (b.data ++ c.data) := by
  rw [String.data_append, String.data_append, List.append_assoc]

theorem get_append_left3 {a : String} (b c : String) {i : Nat}
    (h : i < a.data.length) : (a ++ b ++ c).data[i]? = a.data[i]? := by
  rw [data_append3, List.getElem?_append_left h]

theorem pwMsg_get0 (loc : String) : (pwMsg loc).data[0]? = some 'E' := by
  unfold pwMsg
  rw [get_append_left3 _ _ (by decide)]
  decide

theorem pwMsg_get7 (loc : String) : (pwMsg loc).data[7]? = some 'P' := by
  unfold pwMsg
  rw [get_append_left3 _ _ (by decide)]
  decide

theorem corruptMsg_get0 (loc : String) : (corruptMsg loc).data[0]? = some 'E' := by
  unfold corruptMsg
  rw [get_append_left3 _ _ (by decide)]
  decide

theorem corruptMsg_get7 (loc : String) : (corruptMsg loc).data[7]? = some 'C' := by
  unfold corruptMsg
  rw [get_append_left3 _ _ (by decide)]
  decide

theorem notFoundMsg_get0 (loc : String) : (notFoundMsg loc).data[0]? = some 'E' := by
  unfold notFoundMsg
  rw [get_append_left3 _ _ (by decide)]
  decide

theorem pwMsg_ne_corruptMsg (loc : String) : pwMsg loc ≠ corruptMsg loc :=
  string_ne_of_get (i := 7)
    (by rw [pwMsg_get7, corruptMsg_get7]; decide)

theorem warn_ne_pwMsg (b : Bool) (loc : String) :
    (if b then warnEncMsg else warnPlainMsg) ≠ pwMsg loc := by
  cases b <;>
    exact string_ne_of_get (i := 0) (by rw [pwMsg_get0]; decide)

theorem warn_ne_corruptMsg (b : Bool) (loc : String) :
    (if b then warnEncMsg else warnPlainMsg) ≠ corruptMsg loc := by
  cases b <;>
    exact string_ne_of_get (i := 0) (by rw [corruptMsg_get0]; decide)

theorem warn_ne_notFoundMsg (b : Bool) (loc : String) :
    (if b then warnEncMsg else warnPlainMsg) ≠ notFoundMsg loc := by
  cases b <;>
    exact string_ne_of_get (i := 0) (by rw [notFoundMsg_get0]; decide)

/-! ### Concrete states used by witnesses and counterexamples -/

/-- The resolved workspace root `/app/agent_files` as segments. -/
def base0 : List Seg := ["app", "agent_files"]

/-- An existing, empty workspace. -/
def fsEmpty : FS := ⟨base0, RootStatus.ok, []⟩

/-- A missing workspace root. -/
def fsMissing : FS := ⟨base0, RootStatus.missing, []⟩

/-- A workspace root whose enumeration raises `OSError`. -/
def fsInaccessible : FS := ⟨base0, RootStatus.inaccessible, [(["a.txt"], EntryKind.file "x")]⟩

/-- A PDF-library oracle for runs that never reach the PDF branch. -/
def pdfOracle0 : String → PdfLibResult := fun _ => PdfLibResult.otherError ""

/-- A workspace holding a directory `archive` and the extensionless file
`archive/notes`. -/
def fsArchive : FS :=
  ⟨base0, RootStatus.ok,
   [(["archive"], EntryKind.dir), (["archive", "notes"], EntryKind.file "plain")]⟩

/-! ### C1 -/

/-- C1 counterexample: the locator `sub/../inside.txt` contains a
parent-directory `..` segment, yet `_resolve_safe_path` does not fail: the
canonicalized candidate `sub/..` pops back inside the root, the safety
check passes, a path is returned, and `read_text_file` reports a plain
not-found error rather than the path-traversal error. -/
theorem C1_counterexample :
    hasChar "sub/../inside.txt" '/' = true ∧
    containsSeq "sub/../inside.txt".data "..".data = true ∧
    resolveSafePath fsEmpty "sub/../inside.txt" =
      (some ["app", "agent_files", "inside.txt"], fsEmpty) ∧
    (read_text_file pdfOracle0 true fsEmpty "sub/../inside.txt").fst =
      notFoundMsg "sub/../inside.txt" ∧
    notFoundMsg "sub/../inside.txt" ≠ readInvalidMsg := by
  decide

/-- C1 (amended): no resolved path outside the root is ever returned, and
every separator-containing locator whose canonicalized join with the root
falls outside the root — absolute paths outside the workspace and `..`
sequences that escape it — makes resolution fail with no path, leaving
the state unchanged, and makes `read_text_file` / `write_text_file`
return their path-traversal error, regardless of whether a file exists at
the traversed destination.  (A `..` segment that re-enters the root is
resolved normally, which is the sole correction to the claim.) -/
theorem C1_traversal_amended (fs : FS) (loc content : String) (p : List Seg)
    (fs' : FS) (pdfLib : String → PdfLibResult) (pypdf2 : Bool) :
    (resolveSafePath fs loc = (some p, fs') → fs.base <+: p) ∧
    (containsSep loc = true → ¬ fs.base <+: joinResolve fs.base loc →
      resolveSafePath fs loc = (none, fs) ∧
      read_text_file pdfLib pypdf2 fs loc = (readInvalidMsg, fs) ∧
      write_text_file fs loc content = (writeInvalidMsg, fs)) := by
  constructor
  · exact resolve_some_prefix
  · intro hsep hpre
    have hres : resolveSafePath fs loc = (none, fs) := by
      by_cases h1 : fs.rootStatus = RootStatus.missing
      · unfold resolveSafePath
        rw [if_pos h1]
      · rw [resolveSafePath_sep h1 hsep]
        exact finishResolve_notPrefix hpre
    refine ⟨hres, ?_, ?_⟩
    · unfold read_text_file
      rw [hres]
    · unfold write_text_file
      rw [hres]

/-- Witness for C1: the escaping locator `../../etc/passwd` on the empty
workspace, with both implications discharged concretely. -/
theorem C1_traversal_amended_witness :
    resolveSafePath fsEmpty "../../etc/passwd" = (none, fsEmpty) ∧
    read_text_file pdfOracle0 true fsEmpty "../../etc/passwd" = (readInvalidMsg, fsEmpty) ∧
    write_text_file fsEmpty "../../etc/passwd" "x" = (writeInvalidMsg, fsEmpty) :=
  (C1_traversal_amended fsEmpty "../../etc/passwd" "x" [] fsEmpty pdfOracle0 true).2
    (by decide) (by decide)

/-! ### C2 -/

/-- C2 counterexample: listing a missing root and listing an
`OSError`-raising root both return the very same empty collection that an
empty root returns — the error state is not distinguishable from the
empty-root result at the caller. -/
theorem C2_counterexample :
    list_files_in_workspace fsMissing = list_files_in_workspace fsEmpty ∧
    list_files_in_workspace fsInaccessible = list_files_in_workspace fsEmpty ∧
    list_files_in_workspace fsEmpty = [] := by
  decide

/-- C2 (amended): listing returns the empty collection when the root
exists and is empty, and it also returns the empty collection — not a
distinguishable error state — when the root is missing, not a directory,
or cannot be enumerated; the failure is only logged. -/
theorem C2_listing_amended (fs : FS) :
    (fs.rootStatus = RootStatus.ok → fs.entries = [] →
      list_files_in_workspace fs = []) ∧
    (fs.rootStatus ≠ RootStatus.ok → list_files_in_workspace fs = []) := by
  constructor
  · intro h1 h2
    unfold list_files_in_workspace
    rw [h1, h2]
    rfl
  · intro h
    unfold list_files_in_workspace
    cases hs : fs.rootStatus with
    | missing => rfl
    | notDir => rfl
    | inaccessible => rfl
    | ok => exact absurd hs h

/-- Witness for C2: the empty root and the missing root both list as `[]`. -/
theorem C2_listing_amended_witness :
    list_files_in_workspace fsEmpty = [] ∧ list_files_in_workspace fsMissing = [] :=
  ⟨(C2_listing_amended fsEmpty).1 rfl rfl, (C2_listing_amended fsMissing).2 (by decide)⟩

/-! ### C5 -/

/-- C5 counterexample: a path-traversal failure (existing root, locator
`../../../etc/passwd`) and an unavailable-root failure (missing root,
locator `notes.txt`) both collapse to the same `None` sentinel at the
resolver's interface, and `read_text_file` / `write_text_file` return
byte-identical error messages for the two causes — the failure classes
are not distinguishable, and the unavailable-root exception was swallowed
rather than propagated. -/
theorem C5_counterexample :
    resolveSafePath fsEmpty "../../../etc/passwd" = (none, fsEmpty) ∧
    resolveSafePath fsMissing "notes.txt" = (none, fsMissing) ∧
    (read_text_file pdfOracle0 true fsEmpty "../../../etc/passwd").fst =
      (read_text_file pdfOracle0 true fsMissing "notes.txt").fst ∧
    (write_text_file fsEmpty "../../../etc/passwd" "x").fst =
      (write_text_file fsMissing "notes.txt" "x").fst := by
  decide

/-- C5 (amended): every resolution failure — path traversal, unavailable
root, or an unexpected file-system error during resolution — is swallowed
into the single sentinel `None`, leaving the file system unchanged;
`read_text_file` then returns its one generic invalid-path message and
`write_text_file` its one generic invalid-path-for-writing message, so the
failure causes are not distinguishable from each other at the resolver's
or the callers' interface (they are distinguished only in logs). -/
theorem C5_failure_collapse_amended (fs : FS) (loc content : String)
    (pdfLib : String → PdfLibResult) (pypdf2 : Bool)
    (h : (resolveSafePath fs loc).fst = none) :
    resolveSafePath fs loc = (none, fs) ∧
    read_text_file pdfLib pypdf2 fs loc = (readInvalidMsg, fs) ∧
    write_text_file fs loc content = (writeInvalidMsg, fs) := by
  have hres := resolve_none_state h
  refine ⟨hres, ?_, ?_⟩
  · unfold read_text_file
    rw [hres]
  · unfold write_text_file
    rw [hres]

/-- Witness for C5: the missing-root failure at locator `notes.txt`. -/
theorem C5_failure_collapse_amended_witness :
    resolveSafePath fsMissing "notes.txt" = (none, fsMissing) ∧
    read_text_file pdfOracle0 true fsMissing "notes.txt" = (readInvalidMsg, fsMissing) ∧
    write_text_file fsMissing "notes.txt" "x" = (writeInvalidMsg, fsMissing) :=
  C5_failure_collapse_amended fsMissing "notes.txt" "x" pdfOracle0 true (by decide)

/-! ### C3 -/

/-- C3 (confirmed): for a bare-name locator whose search matches one or
more entries, resolution returns the match at the head of the stable
depth sort — a match of minimal directory depth among all matches — and
the workspace state is left unchanged, so a repeated call on the
resulting state returns the very same path (ties break by the fixed
enumeration order, deterministically). -/
theorem C3_shallowest_deterministic (fs : FS) (loc : String)
    (m : List Seg × EntryKind)
    (hroot : fs.rootStatus = RootStatus.ok)
    (hsep : containsSep loc = false)
    (hm : (sortByDepth (matchingEntries fs (bareSearchPattern loc))).head? = some m) :
    resolveSafePath fs loc = (some (fs.base ++ m.fst), fs) ∧
    m ∈ matchingEntries fs (bareSearchPattern loc) ∧
    (∀ e ∈ matchingEntries fs (bareSearchPattern loc), m.fst.length ≤ e.fst.length) ∧
    resolveSafePath ((resolveSafePath fs loc).snd) loc = resolveSafePath fs loc := by
  obtain ⟨hmem, hmin⟩ :
      m ∈ matchingEntries fs (bareSearchPattern loc) ∧
        ∀ e ∈ matchingEntries fs (bareSearchPattern loc),
          m.fst.length ≤ e.fst.length := by
    cases hs : sortByDepth (matchingEntries fs (bareSearchPattern loc)) with
    | nil => rw [hs] at hm; cases hm
    | cons a t =>
      rw [hs] at hm
      simp only [List.head?_cons, Option.some.injEq] at hm
      subst hm
      exact head_sortByDepth_min hs
  have hment : m ∈ fs.entries := mem_matchingEntries_sub hmem
  have hres : resolveSafePath fs loc = (some (fs.base ++ m.fst), fs) := by
    rw [resolveSafePath_bare hroot, resolveCandidate_bare_found hsep hm]
    apply finishResolve_exists (List.prefix_append _ _)
    by_cases hn : m.fst = []
    · unfold pathExists
      rw [hn]
      simp
    · rw [pathExists_append hn]
      exact lookupL_isSome_of_mem (k := m.snd) hment
  exact ⟨hres, hmem, hmin, by simp [hres]⟩

/-- Witness for C3: the bare name `report` on a workspace holding
`report.md`, `report.txt` and `data/report.txt` resolves to the
shallowest match `report.md`, first in enumeration order at depth 1. -/
theorem C3_shallowest_deterministic_witness :
    resolveSafePath ⟨base0, RootStatus.ok,
        [(["report.md"], EntryKind.file "md"), (["report.txt"], EntryKind.file "txt"),
         (["data"], EntryKind.dir), (["data", "report.txt"], EntryKind.file "deep")]⟩
        "report" =
      (some (base0 ++ ["report.md"]),
       ⟨base0, RootStatus.ok,
        [(["report.md"], EntryKind.file "md"), (["report.txt"], EntryKind.file "txt"),
         (["data"], EntryKind.dir), (["data", "report.txt"], EntryKind.file "deep")]⟩) ∧
    (["report.md"], EntryKind.file "md") ∈
      matchingEntries ⟨base0, RootStatus.ok,
        [(["report.md"], EntryKind.file "md"), (["report.txt"], EntryKind.file "txt"),
         (["data"], EntryKind.dir), (["data", "report.txt"], EntryKind.file "deep")]⟩
        (bareSearchPattern "report") ∧
    (∀ e ∈ matchingEntries ⟨base0, RootStatus.ok,
        [(["report.md"], EntryKind.file "md"), (["report.txt"], EntryKind.file "txt"),
         (["data"], EntryKind.dir), (["data", "report.txt"], EntryKind.file "deep")]⟩
        (bareSearchPattern "report"),
      (["report.md"] : List Seg).length ≤ e.fst.length) ∧
    resolveSafePath ((resolveSafePath ⟨base0, RootStatus.ok,
        [(["report.md"], EntryKind.file "md"), (["report.txt"], EntryKind.file "txt"),
         (["data"], EntryKind.dir), (["data", "report.txt"], EntryKind.file "deep")]⟩
        "report").snd) "report" =
      resolveSafePath ⟨base0, RootStatus.ok,
        [(["report.md"], EntryKind.file "md"), (["report.txt"], EntryKind.file "txt"),
         (["data"], EntryKind.dir), (["data", "report.txt"], EntryKind.file "deep")]⟩
        "report" :=
  C3_shallowest_deterministic _ "report" (["report.md"], EntryKind.file "md")
    rfl (by decide) (by decide)

/-! ### C6 -/

/-- C6 (confirmed): when a locator resolves to an existing directory
rather than a regular file, `read_text_file` returns the NotFound-class
message "Error: File not found or is not a regular file at ..." — it
never returns raw content and raises nothing (the embedding is total and
the result is exactly this error pair). -/
theorem C6_dir_read (fs : FS) (loc : String) (p : List Seg) (fs' : FS)
    (pdfLib : String → PdfLibResult) (pypdf2 : Bool)
    (hres : resolveSafePath fs loc = (some p, fs'))
    (hdir : p = fs'.base ∨ lookupEntry fs' (p.drop fs'.base.length) = some EntryKind.dir) :
    read_text_file pdfLib pypdf2 fs loc = (notFoundMsg loc, fs') := by
  have hcontent : contentAt fs' p = none := by
    unfold contentAt
    by_cases hb : p = fs'.base
    · rw [if_pos hb]
    · rcases hdir with h | h
      · exact absurd h hb
      · have h1 : fs.base <+: p := resolve_some_prefix hres
        have h2 : fs'.base = fs.base := (resolve_some_preserves hres).1
        rw [if_neg hb, if_pos (List.isPrefixOf_iff_prefix.mpr (h2 ▸ h1)), h]
  unfold read_text_file
  rw [hres]
  simp only [hcontent]

/-- Witness for C6: reading the bare name `data`, which resolves to the
directory `data` under the root. -/
theorem C6_dir_read_witness :
    read_text_file pdfOracle0 true ⟨base0, RootStatus.ok, [(["data"], EntryKind.dir)]⟩
        "data" =
      (notFoundMsg "data", ⟨base0, RootStatus.ok, [(["data"], EntryKind.dir)]⟩) :=
  C6_dir_read _ "data" (base0 ++ ["data"]) _ pdfOracle0 true (by decide)
    (Or.inr (by decide))

/-! ### C8 -/

/-- C8 (confirmed): `write_text_file` resolves its locator with the same
bare-name search as reads, so a bare-name write whose search matches an
existing regular file in a subdirectory (the shallowest match, at depth
at least 2) overwrites that subdirectory file in place and does not
create or touch a file of that name directly under the root; and only
when no entry matches the search is the write targeted at
`root / locator`. -/
theorem C8_bare_write_targets (fs : FS) (loc content oldc : String)
    (m : List Seg × EntryKind)
    (hroot : fs.rootStatus = RootStatus.ok)
    (hsep : containsSep loc = false)
    (h2 : loc ≠ "") (h3 : loc ≠ ".") (h4 : loc ≠ "..") :
    ((sortByDepth (matchingEntries fs (bareSearchPattern loc))).head? = some m →
      m.snd = EntryKind.file oldc → 2 ≤ m.fst.length →
      (fs.entries.map Prod.fst).Nodup →
      (write_text_file fs loc content).fst = successMsg loc ∧
      lookupEntry (write_text_file fs loc content).snd m.fst =
        some (EntryKind.file content) ∧
      lookupEntry (write_text_file fs loc content).snd [loc] =
        lookupEntry fs [loc]) ∧
    (matchingEntries fs (bareSearchPattern loc) = [] →
      (resolveSafePath fs loc).fst = some (fs.base ++ [loc])) := by
  constructor
  · intro hm hfile hlen hnodup
    have hmem : m ∈ fs.entries := by
      cases hs : sortByDepth (matchingEntries fs (bareSearchPattern loc)) with
      | nil => rw [hs] at hm; cases hm
      | cons a t =>
        rw [hs] at hm
        simp only [List.head?_cons, Option.some.injEq] at hm
        subst hm
        exact mem_matchingEntries_sub (head_sortByDepth_min hs).1
    have hrel : m.fst ≠ [] := by
      intro h
      rw [h] at hlen
      simp at hlen
    have hlkm : lookupEntry fs m.fst = some m.snd :=
      lookupL_of_mem_nodup hnodup hmem
    have hres : resolveSafePath fs loc = (some (fs.base ++ m.fst), fs) := by
      rw [resolveSafePath_bare hroot, resolveCandidate_bare_found hsep hm]
      apply finishResolve_exists (List.prefix_append _ _)
      rw [pathExists_append hrel, hlkm]
      rfl
    have hw : writeTextAt fs (fs.base ++ m.fst) content =
        some { fs with entries := mapUpd fs.entries m.fst content } :=
      writeTextAt_overwrite hrel (by rw [hlkm, hfile])
    unfold write_text_file
    rw [hres]
    simp only [hw]
    refine ⟨by simp, ?_, ?_⟩
    · exact lookupL_mapUpd_self (by rw [show lookupL fs.entries m.fst =
        lookupEntry fs m.fst from rfl, hlkm]; rfl)
    · apply lookupL_mapUpd_other
      intro he
      have : ([loc] : List Seg).length = m.fst.length := by rw [he]
      simp at this
      omega
  · intro hnone
    exact resolve_bare_fallback hroot hsep h2 h3 h4 hnone

/-- Witness for C8: writing bare `notes.txt` into a workspace holding
only `sub/notes.txt` overwrites the subdirectory file; the root keeps no
`notes.txt` entry. -/
theorem C8_bare_write_targets_witness :
    (write_text_file ⟨base0, RootStatus.ok,
        [(["sub"], EntryKind.dir), (["sub", "notes.txt"], EntryKind.file "old")]⟩
        "notes.txt" "new").fst = successMsg "notes.txt" ∧
    lookupEntry (write_text_file ⟨base0, RootStatus.ok,
        [(["sub"], EntryKind.dir), (["sub", "notes.txt"], EntryKind.file "old")]⟩
        "notes.txt" "new").snd ["sub", "notes.txt"] =
      some (EntryKind.file "new") ∧
    lookupEntry (write_text_file ⟨base0, RootStatus.ok,
        [(["sub"], EntryKind.dir), (["sub", "notes.txt"], EntryKind.file "old")]⟩
        "notes.txt" "new").snd ["notes.txt"] =
      lookupEntry ⟨base0, RootStatus.ok,
        [(["sub"], EntryKind.dir), (["sub", "notes.txt"], EntryKind.file "old")]⟩
        ["notes.txt"] :=
  (C8_bare_write_targets _ "notes.txt" "new" "old"
      (["sub", "notes.txt"], EntryKind.file "old") rfl (by decide) (by decide)
      (by decide) (by decide)).1
    (by decide) rfl (by decide) (by decide)

/-! ### C4 -/

/-- C4 counterexample: the workspace holds a regular file `a` at the
root; the parent directory `a` of the locator `a/b.txt` therefore does
not yet exist, but writing `a/b.txt` does not create it and does not
succeed — `mkdir(parents=True)` raises against the file `a`, the
resolver swallows the exception into `None`, and the write (and a
subsequent read) report the generic invalid-path error instead of the
round-tripped content. -/
theorem C4_counterexample :
    (write_text_file ⟨base0, RootStatus.ok, [(["a"], EntryKind.file "blocker")]⟩
        "a/b.txt" "hello").fst = writeInvalidMsg ∧
    (write_text_file ⟨base0, RootStatus.ok, [(["a"], EntryKind.file "blocker")]⟩
        "a/b.txt" "hello").fst ≠ successMsg "a/b.txt" ∧
    (read_text_file pdfOracle0 true
        (write_text_file ⟨base0, RootStatus.ok, [(["a"], EntryKind.file "blocker")]⟩
          "a/b.txt" "hello").snd "a/b.txt").fst ≠ "hello" := by
  decide

/-- C4 (amended): for a separator-containing locator that stays inside
the root, whose target and ancestor directories do not exist at all (no
entry — in particular no regular file — occupies any parent name), and
whose filename suffix is not `.pdf`, writing creates the missing parent
directories, succeeds, and a subsequent read of the same locator returns
exactly the written content.  (The corrections: a regular file occupying
a parent name makes the write fail instead, per the counterexample; and
a `.pdf` locator is read back through PDF extraction, not as raw text.) -/
theorem C4_write_read_roundtrip_amended (fs : FS) (loc content : String)
    (rel : List Seg) (pdfLib : String → PdfLibResult) (pypdf2 : Bool)
    (hroot : fs.rootStatus = RootStatus.ok)
    (hsep : containsSep loc = true)
    (hjoin : joinResolve fs.base loc = fs.base ++ rel)
    (hrel : rel ≠ [])
    (htgt : lookupEntry fs rel = none)
    (hpar : ∀ q ∈ properParents rel, lookupEntry fs q = none)
    (hpdf : lowerStr (pathSuffixStr ((rel.getLast?).getD "")) ≠ ".pdf") :
    (write_text_file fs loc content).fst = successMsg loc ∧
    (∀ q ∈ properParents rel,
      lookupEntry (write_text_file fs loc content).snd q = some EntryKind.dir) ∧
    (read_text_file pdfLib pypdf2 (write_text_file fs loc content).snd loc).fst =
      content := by
  have hres := resolve_pathform_new hroot hsep hjoin hrel htgt hpar
  have hlk1 : lookupEntry
      { fs with entries := fs.entries ++
          (properParents rel).map (fun n => (n, EntryKind.dir)) } rel = none :=
    lookup_newdirs_tgt_none htgt
  have hparent1 : (rel.dropLast = [] ∧
      (fs.rootStatus : RootStatus) = RootStatus.ok) ∨
      lookupEntry { fs with entries := fs.entries ++
          (properParents rel).map (fun n => (n, EntryKind.dir)) } rel.dropLast =
        some EntryKind.dir := by
    by_cases hdl : rel.dropLast = []
    · exact Or.inl ⟨hdl, hroot⟩
    · refine Or.inr ?_
      have hlen : 2 ≤ rel.length := by
        have hpos : 0 < rel.dropLast.length := List.length_pos.mpr hdl
        rw [List.length_dropLast] at hpos
        omega
      exact lookup_dirs_created hpar (dropLast_mem_properParents hlen)
  have hw : writeTextAt
      { fs with entries := fs.entries ++
          (properParents rel).map (fun n => (n, EntryKind.dir)) }
      (fs.base ++ rel) content =
      some { fs with entries := (fs.entries ++
          (properParents rel).map (fun n => (n, EntryKind.dir))) ++
          [(rel, EntryKind.file content)] } :=
    writeTextAt_new hrel hlk1 hparent1
  have hwrite : write_text_file fs loc content =
      (successMsg loc,
       { fs with entries := (fs.entries ++
          (properParents rel).map (fun n => (n, EntryKind.dir))) ++
          [(rel, EntryKind.file content)] }) := by
    unfold write_text_file
    rw [hres]
    simp only [hw]
  have hlk2 : lookupEntry
      { fs with entries := (fs.entries ++
          (properParents rel).map (fun n => (n, EntryKind.dir))) ++
          [(rel, EntryKind.file content)] } rel = some (EntryKind.file content) := by
    show lookupL _ rel = _
    rw [lookupL_append_right (lookup_newdirs_tgt_none htgt), lookupL_cons, if_pos rfl]
  refine ⟨by rw [hwrite], ?_, ?_⟩
  · intro q hq
    rw [hwrite]
    show lookupL _ q = _
    rw [lookupL_append_left (by rw [lookup_dirs_created hpar hq]; rfl)]
    exact lookup_dirs_created hpar hq
  · rw [hwrite]
    have hres2 : resolveSafePath
        { fs with entries := (fs.entries ++
            (properParents rel).map (fun n => (n, EntryKind.dir))) ++
            [(rel, EntryKind.file content)] } loc =
        (some (fs.base ++ rel),
         { fs with entries := (fs.entries ++
            (properParents rel).map (fun n => (n, EntryKind.dir))) ++
            [(rel, EntryKind.file content)] }) := by
      rw [resolveSafePath_sep (by simp [hroot]) hsep]
      rw [show joinResolve
          ({ fs with entries := (fs.entries ++
              (properParents rel).map (fun n => (n, EntryKind.dir))) ++
              [(rel, EntryKind.file content)] } : FS).base loc = fs.base ++ rel from hjoin]
      apply finishResolve_exists (List.prefix_append _ _)
      rw [pathExists_append hrel, hlk2]
      rfl
    have hcont2 : contentAt
        { fs with entries := (fs.entries ++
            (properParents rel).map (fun n => (n, EntryKind.dir))) ++
            [(rel, EntryKind.file content)] } (fs.base ++ rel) = some content := by
      have h := @contentAt_append
        { fs with entries := (fs.entries ++
            (properParents rel).map (fun n => (n, EntryKind.dir))) ++
            [(rel, EntryKind.file content)] } rel hrel
      rw [hlk2] at h
      exact h
    unfold read_text_file
    rw [hres2]
    simp only [hcont2]
    rw [if_neg (by rw [getLast?_append_of_ne_nil hrel]; exact hpdf)]

/-- Witness for C4: writing `notes/draft.txt` = "hello" into the empty
workspace creates `notes/` and reading `notes/draft.txt` back returns
"hello". -/
theorem C4_write_read_roundtrip_amended_witness :
    (write_text_file fsEmpty "notes/draft.txt" "hello").fst =
      successMsg "notes/draft.txt" ∧
    (∀ q ∈ properParents ["notes", "draft.txt"],
      lookupEntry (write_text_file fsEmpty "notes/draft.txt" "hello").snd q =
        some EntryKind.dir) ∧
    (read_text_file pdfOracle0 true
        (write_text_file fsEmpty "notes/draft.txt" "hello").snd
        "notes/draft.txt").fst = "hello" :=
  C4_write_read_roundtrip_amended fsEmpty "notes/draft.txt" "hello"
    ["notes", "draft.txt"] pdfOracle0 true rfl (by decide) (by decide) (by decide)
    (by decide) (by decide) (by decide)

/-! ### C9 -/

/-- C9 (confirmed): resolving a safe separator-containing locator whose
target and parents do not exist creates the parent directory chain even
when the operation is only a read: `read_text_file` of such a locator
returns the not-found error, yet the resulting state holds the freshly
created directories (in particular the first path component, absent
before the call, exists afterwards). -/
theorem C9_read_creates_dirs (fs : FS) (loc : String) (rel : List Seg)
    (pdfLib : String → PdfLibResult) (pypdf2 : Bool)
    (hroot : fs.rootStatus = RootStatus.ok)
    (hsep : containsSep loc = true)
    (hjoin : joinResolve fs.base loc = fs.base ++ rel)
    (hrel : rel ≠ [])
    (htgt : lookupEntry fs rel = none)
    (hpar : ∀ q ∈ properParents rel, lookupEntry fs q = none)
    (hlen : 2 ≤ rel.length) :
    (read_text_file pdfLib pypdf2 fs loc).fst = notFoundMsg loc ∧
    lookupEntry fs (rel.take 1) = none ∧
    (∀ q ∈ properParents rel,
      lookupEntry (read_text_file pdfLib pypdf2 fs loc).snd q = some EntryKind.dir) ∧
    lookupEntry (read_text_file pdfLib pypdf2 fs loc).snd (rel.take 1) =
      some EntryKind.dir := by
  have hres := resolve_pathform_new hroot hsep hjoin hrel htgt hpar
  have htake : rel.take 1 ∈ properParents rel :=
    mem_properParents.mpr ⟨1, Nat.le_refl 1, by omega, rfl⟩
  have hcont1 : contentAt
      { fs with entries := fs.entries ++
          (properParents rel).map (fun n => (n, EntryKind.dir)) } (fs.base ++ rel) =
      none := by
    have h := @contentAt_append
      { fs with entries := fs.entries ++
          (properParents rel).map (fun n => (n, EntryKind.dir)) } rel hrel
    have hlk : lookupEntry
        { fs with entries := fs.entries ++
            (properParents rel).map (fun n => (n, EntryKind.dir)) } rel = none :=
      lookup_newdirs_tgt_none htgt
    rw [hlk] at h
    exact h
  have hread : read_text_file pdfLib pypdf2 fs loc =
      (notFoundMsg loc,
       { fs with entries := fs.entries ++
          (properParents rel).map (fun n => (n, EntryKind.dir)) }) := by
    unfold read_text_file
    rw [hres]
    simp only [hcont1]
  refine ⟨by rw [hread], hpar _ htake, ?_, ?_⟩
  · intro q hq
    rw [hread]
    exact lookup_dirs_created hpar hq
  · rw [hread]
    exact lookup_dirs_created hpar htake

/-- Witness for C9: reading the nonexistent `newdir/ghost.txt` on the
empty workspace returns the not-found error yet creates `newdir`. -/
theorem C9_read_creates_dirs_witness :
    (read_text_file pdfOracle0 true fsEmpty "newdir/ghost.txt").fst =
      notFoundMsg "newdir/ghost.txt" ∧
    lookupEntry fsEmpty (["newdir", "ghost.txt"].take 1) = none ∧
    (∀ q ∈ properParents ["newdir", "ghost.txt"],
      lookupEntry (read_text_file pdfOracle0 true fsEmpty "newdir/ghost.txt").snd q =
        some EntryKind.dir) ∧
    lookupEntry (read_text_file pdfOracle0 true fsEmpty "newdir/ghost.txt").snd
        (["newdir", "ghost.txt"].take 1) = some EntryKind.dir :=
  C9_read_creates_dirs fsEmpty "newdir/ghost.txt" ["newdir", "ghost.txt"]
    pdfOracle0 true rfl (by decide) (by decide) (by decide) (by decide) (by decide)
    (by decide)

/-! ### C10 -/

/-- C10 (confirmed): the extension-agnostic search for a bare name with
no extension uses the pattern `name.*`, which never matches a file
literally named `name`; so even when such a file exists in a
subdirectory (and nothing else matches the pattern), resolution falls
back to the fresh-file target `root/name`, which differs from the
subdirectory file's path — that file is reachable only via its explicit
relative path. -/
theorem C10_extension_agnostic_miss (fs : FS) (loc : String) (rel : List Seg)
    (c : String)
    (hroot : fs.rootStatus = RootStatus.ok)
    (hsep : containsSep loc = false)
    (h2 : loc ≠ "") (h3 : loc ≠ ".") (h4 : loc ≠ "..")
    (hstar : hasChar loc '*' = false)
    (hnoext : splitextExt loc.data = [])
    (hmem : (rel, EntryKind.file c) ∈ fs.entries)
    (hlast : rel.getLast? = some loc)
    (hlen : 2 ≤ rel.length)
    (hnone : matchingEntries fs (bareSearchPattern loc) = []) :
    fnmatchGlob (bareSearchPattern loc) loc = false ∧
    ((rel, EntryKind.file c) ∈ fs.entries ∧
      (rel, EntryKind.file c) ∉ matchingEntries fs (bareSearchPattern loc)) ∧
    (resolveSafePath fs loc).fst = some (fs.base ++ [loc]) ∧
    fs.base ++ [loc] ≠ fs.base ++ rel := by
  have hfm := fnmatchGlob_self_noExt hstar hnoext
  refine ⟨hfm, ⟨hmem, ?_⟩, ?_, ?_⟩
  · intro hin
    have hpred := (List.mem_filter.mp hin).2
    simp only [hlast] at hpred
    rw [hfm] at hpred
    cases hpred
  · exact resolve_bare_fallback hroot hsep h2 h3 h4 hnone
  · intro he
    have h1 : ([loc] : List Seg) = rel := List.append_cancel_left he
    have h2 : ([loc] : List Seg).length = rel.length := by rw [h1]
    simp at h2
    omega

/-- Witness for C10: the workspace holds only `archive/` and the
extensionless file `archive/notes`; resolving the bare name `notes`
ignores it and targets `root/notes`. -/
theorem C10_extension_agnostic_miss_witness :
    fnmatchGlob (bareSearchPattern "notes") "notes" = false ∧
    ((["archive", "notes"], EntryKind.file "plain") ∈ fsArchive.entries ∧
      (["archive", "notes"], EntryKind.file "plain") ∉
        matchingEntries fsArchive (bareSearchPattern "notes")) ∧
    (resolveSafePath fsArchive "notes").fst = some (fsArchive.base ++ ["notes"]) ∧
    fsArchive.base ++ ["notes"] ≠ fsArchive.base ++ ["archive", "notes"] :=
  C10_extension_agnostic_miss fsArchive "notes" ["archive", "notes"] "plain"
    rfl (by decide) (by decide) (by decide) (by decide) (by decide) (by decide)
    (by decide) (by decide) (by decide) (by decide)

/-! ### C7 -/

/-- C7 (confirmed): for a locator that resolves to a readable `.pdf`
file, `read_text_file` distinguishes exactly three outcomes of the PDF
library: on a successful parse with extractable text it returns the
per-page texts joined with newline separators; on a successful parse
with no extractable text it returns a warning (a string distinct from
every error-class message, so it is not a failure); and on a
`PdfReadError` whose message names a password it returns the
credential-required error, which is distinct from the generic
corrupted-file error returned for other `PdfReadError`s. -/
theorem C7_pdf_outcomes (fs : FS) (loc : String) (p : List Seg) (fs' : FS)
    (c : String) (enc : Bool) (pages : List String) (rdEnc : Option Bool)
    (msg : String) (o1 o2 : String → PdfLibResult)
    (hres : resolveSafePath fs loc = (some p, fs'))
    (hc : contentAt fs' p = some c)
    (hsuf : lowerStr (pathSuffixStr ((p.getLast?).getD "")) = ".pdf")
    (ho1 : o1 c = PdfLibResult.ok enc pages)
    (ho2 : o2 c = PdfLibResult.readError rdEnc msg) :
    (pages.filter (fun t => t ≠ "") ≠ [] →
      (read_text_file o1 true fs loc).fst =
        joinNewline (pages.filter (fun t => t ≠ ""))) ∧
    (pages.filter (fun t => t ≠ "") = [] →
      (read_text_file o1 true fs loc).fst =
        (if enc then warnEncMsg else warnPlainMsg) ∧
      (if enc then warnEncMsg else warnPlainMsg) ≠ pwMsg loc ∧
      (if enc then warnEncMsg else warnPlainMsg) ≠ corruptMsg loc ∧
      (if enc then warnEncMsg else warnPlainMsg) ≠ notFoundMsg loc) ∧
    (containsPwKeyword msg = true →
      (read_text_file o2 true fs loc).fst = pwMsg loc) ∧
    (containsPwKeyword msg = false →
      (read_text_file o2 true fs loc).fst = corruptMsg loc) ∧
    pwMsg loc ≠ corruptMsg loc := by
  have hread1 : (read_text_file o1 true fs loc).fst =
      pdfOutcomeMessage loc (PdfLibResult.ok enc pages) := by
    unfold read_text_file
    rw [hres]
    simp only [hc]
    rw [if_pos hsuf, if_neg (by decide), ho1]
  have hread2 : (read_text_file o2 true fs loc).fst =
      pdfOutcomeMessage loc (PdfLibResult.readError rdEnc msg) := by
    unfold read_text_file
    rw [hres]
    simp only [hc]
    rw [if_pos hsuf, if_neg (by decide), ho2]
  refine ⟨?_, ?_, ?_, ?_, pwMsg_ne_corruptMsg loc⟩
  · intro hne
    rw [hread1]
    simp only [pdfOutcomeMessage]
    rw [if_neg hne]
  · intro heq
    refine ⟨?_, warn_ne_pwMsg enc loc, warn_ne_corruptMsg enc loc,
      warn_ne_notFoundMsg enc loc⟩
    rw [hread1]
    simp only [pdfOutcomeMessage]
    rw [if_pos heq]
  · intro hkw
    rw [hread2]
    simp only [pdfOutcomeMessage]
    by_cases hrd : rdEnc = some true
    · rw [if_pos ⟨hrd, hkw⟩]
    · rw [if_neg (fun hh => hrd hh.1), if_pos hkw]
  · intro hkw
    rw [hread2]
    simp only [pdfOutcomeMessage]
    rw [if_neg (fun hh => Bool.false_ne_true (hkw ▸ hh.2)),
      if_neg (by simp [hkw])]

/-- Witness for C7: the workspace holds `doc.pdf`; a parse with pages
`["Page1", "", "Page2"]` yields the newline join "Page1\nPage2", an
all-empty parse yields the warning, and a `PdfReadError` reading "File
has not been decrypted" (which contains the keyword "decrypt") yields
the credential error, distinct from the corruption error. -/
theorem C7_pdf_outcomes_witness :
    ((["Page1", "", "Page2"] : List String).filter (fun t => t ≠ "") ≠ [] →
      (read_text_file (fun _ => PdfLibResult.ok false ["Page1", "", "Page2"]) true
          ⟨base0, RootStatus.ok, [(["doc.pdf"], EntryKind.file "PDFBYTES")]⟩
          "doc.pdf").fst =
        joinNewline ((["Page1", "", "Page2"] : List String).filter
          (fun t => t ≠ ""))) ∧
    ((["Page1", "", "Page2"] : List String).filter (fun t => t ≠ "") = [] →
      (read_text_file (fun _ => PdfLibResult.ok false ["Page1", "", "Page2"]) true
          ⟨base0, RootStatus.ok, [(["doc.pdf"], EntryKind.file "PDFBYTES")]⟩
          "doc.pdf").fst =
        (if false then warnEncMsg else warnPlainMsg) ∧
      (if false then warnEncMsg else warnPlainMsg) ≠ pwMsg "doc.pdf" ∧
      (if false then warnEncMsg else warnPlainMsg) ≠ corruptMsg "doc.pdf" ∧
      (if false then warnEncMsg else warnPlainMsg) ≠ notFoundMsg "doc.pdf") ∧
    (containsPwKeyword "File has not been decrypted" = true →
      (read_text_file
          (fun _ => PdfLibResult.readError (some true) "File has not been decrypted")
          true ⟨base0, RootStatus.ok, [(["doc.pdf"], EntryKind.file "PDFBYTES")]⟩
          "doc.pdf").fst = pwMsg "doc.pdf") ∧
    (containsPwKeyword "File has not been decrypted" = false →
      (read_text_file
          (fun _ => PdfLibResult.readError (some true) "File has not been decrypted")
          true ⟨base0, RootStatus.ok, [(["doc.pdf"], EntryKind.file "PDFBYTES")]⟩
          "doc.pdf").fst = corruptMsg "doc.pdf") ∧
    pwMsg "doc.pdf" ≠ corruptMsg "doc.pdf" :=
  C7_pdf_outcomes ⟨base0, RootStatus.ok, [(["doc.pdf"], EntryKind.file "PDFBYTES")]⟩
    "doc.pdf" (base0 ++ ["doc.pdf"])
    ⟨base0, RootStatus.ok, [(["doc.pdf"], EntryKind.file "PDFBYTES")]⟩
    "PDFBYTES" false ["Page1", "", "Page2"] (some true)
    "File has not been decrypted"
    (fun _ => PdfLibResult.ok false ["Page1", "", "Page2"])
    (fun _ => PdfLibResult.readError (some true) "File has not been decrypted")
    (by decide) (by decide) (by decide) rfl rfl

end Agent
